import Mathlib

/-!
Verification development for the rigid-cube collision simulation
(`src/atom.ts`, `src/molecule.ts`, `src/collision-detector.ts`, `src/config.ts`,
`src/index.ts`).  The TypeScript code is shallowly embedded over exact
rationals: three.js `Vector3` becomes `Vec3` with `ℚ` components, and the two
irrational primitives of the source (`Math.sqrt` inside `Vector3.length`/
`Vector3.normalize`, and the trigonometric `slerp`) are either passed in as
explicit function parameters or rendered by `ratSqrt`, which agrees with the
real square root on every perfect rational square (all concrete inputs used
below only ever take square roots of perfect squares, so those evaluations are
exact).  Comparisons of the form `v.length() > c` with `c ≥ 0` are rendered as
the exactly equivalent `lengthSq v > c^2`.
-/

namespace VentionSim

/-- three.js `Vector3`, with exact rational components. -/
structure Vec3 where
  x : ℚ
  y : ℚ
  z : ℚ
deriving DecidableEq

/-- Embeds `Vector3.add`. -/
def vadd (a b : Vec3) : Vec3 := ⟨a.x + b.x, a.y + b.y, a.z + b.z⟩

/-- Embeds `Vector3.sub`. -/
def vsub (a b : Vec3) : Vec3 := ⟨a.x - b.x, a.y - b.y, a.z - b.z⟩

/-- Embeds `Vector3.negate`. -/
def vneg (a : Vec3) : Vec3 := ⟨-a.x, -a.y, -a.z⟩

/-- Embeds `Vector3.multiplyScalar`. -/
def smul (c : ℚ) (a : Vec3) : Vec3 := ⟨c * a.x, c * a.y, c * a.z⟩

/-- Embeds `Vector3.dot`. -/
def dot (a b : Vec3) : ℚ := a.x * b.x + a.y * b.y + a.z * b.z

/-- Embeds `Vector3.crossVectors`. -/
def cross (a b : Vec3) : Vec3 :=
  ⟨a.y * b.z - a.z * b.y, a.z * b.x - a.x * b.z, a.x * b.y - a.y * b.x⟩

/-- Embeds `Vector3.lengthSq`. -/
def lengthSq (a : Vec3) : ℚ := a.x * a.x + a.y * a.y + a.z * a.z

/-- Floor square root `⌊√n⌋` by linear search (structurally recursive, so the kernel can
evaluate it, unlike `Nat.sqrt`). -/
def natSqrtLin (n : ℕ) : ℕ := ((List.range (n + 1)).takeWhile fun k => k * k ≤ n).length - 1

/-- Computable square root on `ℚ`, exact on perfect rational squares
(numerator and denominator of the reduced fraction both perfect squares).
Stands in for `Math.sqrt` at concrete inputs where the argument is a perfect
square, so the evaluation agrees with real-number semantics there. -/
def ratSqrt (q : ℚ) : ℚ := ((natSqrtLin q.num.toNat : ℤ) : ℚ) / (natSqrtLin q.den : ℚ)

/-- Embeds `Vector3.length`, parameterized by the square-root interpretation. -/
def vlength (sqrtFn : ℚ → ℚ) (a : Vec3) : ℚ := sqrtFn (lengthSq a)

/-- Embeds `Vector3.normalize` (three.js divides by `length || 1`, so the zero vector
is fixed; with rational division-by-zero equal to zero the zero vector is
likewise fixed here). -/
def vnormalize (sqrtFn : ℚ → ℚ) (a : Vec3) : Vec3 :=
  smul (1 / sqrtFn (lengthSq a)) a

/-! ## Narrow phase: `SATCollisionDetector` (`src/collision-detector.ts`)

An atom's pose is its world-space center together with the three columns of
the rotation part of its world matrix (`meshToOrientedBoundingBox` /
`meshToOBB` extracts and normalizes exactly these).  `Config.atom_size` is the
parameter `s` throughout. -/

/-- World pose of a cube: center plus the three rotation-matrix columns. -/
structure Pose where
  center : Vec3
  u1 : Vec3
  u2 : Vec3
  u3 : Vec3
deriving DecidableEq

/-- Embeds `OrientedBoundingBox`. -/
structure OBB where
  center : Vec3
  a1 : Vec3
  a2 : Vec3
  a3 : Vec3
deriving DecidableEq

/-- Embeds `SATCollisionDetector.meshToOrientedBoundingBox`: normalize the three
rotation-matrix columns. -/
def mkOBB (sqrtFn : ℚ → ℚ) (p : Pose) : OBB :=
  ⟨p.center, vnormalize sqrtFn p.u1, vnormalize sqrtFn p.u2, vnormalize sqrtFn p.u3⟩

/-- Embeds `SATCollisionDetector.projectOBBOntoAxis`; returns `(min, max)`.
`s` is `Config.atom_size`. -/
def projectOBB (s : ℚ) (obb : OBB) (axis : Vec3) : ℚ × ℚ :=
  let centerProjection := dot obb.center axis
  let radius := |dot obb.a1 axis| * s / 2 + |dot obb.a2 axis| * s / 2 +
    |dot obb.a3 axis| * s / 2
  (centerProjection - radius, centerProjection + radius)

/-- Embeds `SATCollisionDetector.testSeparatingAxis`; returns `(separated, overlap)`. -/
def testSepAxis (s : ℚ) (obbA obbB : OBB) (axis : Vec3) : Bool × ℚ :=
  let projA := projectOBB s obbA axis
  let projB := projectOBB s obbB axis
  let separated : Bool := !(decide (projA.2 ≥ projB.1) && decide (projB.2 ≥ projA.1))
  let overlap : ℚ := if separated then 0 else min (projA.2 - projB.1) (projB.2 - projA.1)
  (separated, overlap)

/-- Embeds `EPSILON = 1e-6`. -/
def satEpsilon : ℚ := 1 / 1000000

/-- One cross-product candidate axis: the empty list when the
`cross.length() > EPSILON` filter drops the pair, the normalized cross
product otherwise. -/
def crossAxisList (sqrtFn : ℚ → ℚ) (axisA axisB : Vec3) : List Vec3 :=
  let c := cross axisA axisB
  if vlength sqrtFn c > satEpsilon then [vnormalize sqrtFn c] else []

/-- The 15 candidate axes of `findCollisionInfo`: A's three axes, B's three
axes, then the nine cross products in row-major order (the source's
`flatMap`/`filter`/`map` over the two three-element axis arrays, written out
pair by pair). -/
def testAxes (sqrtFn : ℚ → ℚ) (obbA obbB : OBB) : List Vec3 :=
  [obbA.a1, obbA.a2, obbA.a3, obbB.a1, obbB.a2, obbB.a3] ++
    (crossAxisList sqrtFn obbA.a1 obbB.a1 ++ crossAxisList sqrtFn obbA.a1 obbB.a2 ++
     crossAxisList sqrtFn obbA.a1 obbB.a3 ++ crossAxisList sqrtFn obbA.a2 obbB.a1 ++
     crossAxisList sqrtFn obbA.a2 obbB.a2 ++ crossAxisList sqrtFn obbA.a2 obbB.a3 ++
     crossAxisList sqrtFn obbA.a3 obbB.a1 ++ crossAxisList sqrtFn obbA.a3 obbB.a2 ++
     crossAxisList sqrtFn obbA.a3 obbB.a3)

/-- Accumulator step of the `findCollisionInfo` loop: when the overlap on the
current axis beats the stored minimum (`Infinity` at the start, which `none`
stands for), store it together with the axis, re-normalized and flipped so it
points from A's center toward B's center. -/
def updAcc (sqrtFn : ℚ → ℚ) (obbA obbB : OBB) (acc : Option (ℚ × Vec3))
    (overlap : ℚ) (axis : Vec3) : Option (ℚ × Vec3) :=
  let better : Bool :=
    match acc with
    | none => true
    | some (m, _) => decide (overlap < m)
  if better then
    let n := vnormalize sqrtFn axis
    let centerDiff := vsub obbB.center obbA.center
    let n := if dot n centerDiff < 0 then vneg n else n
    some (overlap, n)
  else acc

/-- The axis loop of `findCollisionInfo`: `none` is the early `return null`
on a separating axis, otherwise the final `(minOverlap, collisionNormal)`
accumulator is returned. -/
def satLoop (sqrtFn : ℚ → ℚ) (s : ℚ) (obbA obbB : OBB) :
    List Vec3 → Option (ℚ × Vec3) → Option (Option (ℚ × Vec3))
  | [], acc => some acc
  | axis :: rest, acc =>
    let r := testSepAxis s obbA obbB axis
    if r.1 then none
    else satLoop sqrtFn s obbA obbB rest (updAcc sqrtFn obbA obbB acc r.2 axis)

/-- Embeds `CollisionInfo` (the two atom references are left implicit; the sticky
flag is `areMatchingFacesColliding` gated by `Config.form_molecules`, passed
in as `matching`). -/
structure CInfo where
  contactPoint : Vec3
  contactNormal : Vec3
  penetrationDepth : ℚ
  isMatchingFaces : Bool
deriving DecidableEq

/-- Embeds `SATCollisionDetector.findCollisionInfo`.  `matching` is the value of
`Config.form_molecules && areMatchingFacesColliding(atomA, atomB)`, passed in
because the face classifier is not needed by any claim below.  The inner
`some none` case is unreachable: the axis list always starts with A's three
axes, so the accumulator is set on the first iteration. -/
def findCollisionInfo (sqrtFn : ℚ → ℚ) (matching : Bool) (s : ℚ)
    (poseA poseB : Pose) : Option CInfo :=
  match satLoop sqrtFn s (mkOBB sqrtFn poseA) (mkOBB sqrtFn poseB)
      (testAxes sqrtFn (mkOBB sqrtFn poseA) (mkOBB sqrtFn poseB)) none with
  | none => none
  | some none => none
  | some (some (minOverlap, collisionNormal)) =>
    some ⟨smul (1/2) (vadd (mkOBB sqrtFn poseA).center (mkOBB sqrtFn poseB).center),
      collisionNormal, minOverlap, matching⟩

/-! ## Impulse resolution: `SATCollisionDetector.resolveCollision`
(`src/collision-detector.ts`, lines 252-356)

`resolveCollision` first replaces each atom by `atom.is_in_molecule ?
atom.molecule : atom`; the resulting body (`objA`/`objB`) carries the mass and
characteristic size used by the impulse formula (`Molecule.getMass`/`getSize`
when owned, `Config.atom_mass`/`Config.atom_size` otherwise).  The
trigonometric `slerp` helper and the square root inside `length`/`normalize`
are passed in as `slerpFn`/`sqrtFn`; `e` is `Config.restitution_coefficient`
and `lerpAmt` is `Molecule.lerp_amt`. -/

/-- A body as seen by the resolver (an atom, or the aggregate owning it). -/
structure ObjS where
  position : Vec3
  velocity : Vec3
  rotation_axis : Vec3
  rotation_speed : ℚ
  mass : ℚ
  size : ℚ
  isMolecule : Bool
deriving DecidableEq

/-- The atom-level data of a narrow-phase contact: the atom's own motion
state, plus the owning aggregate's body state when `is_in_molecule`. -/
structure AtomBody where
  position : Vec3
  velocity : Vec3
  rotation_axis : Vec3
  rotation_speed : ℚ
  is_in_molecule : Bool
  molecule : ObjS
deriving DecidableEq

/-- Embeds `atomA.is_in_molecule ? atomA.molecule : atomA`, with `Atom.getMass`
returning `Config.atom_mass` and `Atom.getSize` returning `Config.atom_size`
for a free atom. -/
def selectBody (atomMass atomSize : ℚ) (a : AtomBody) : ObjS :=
  if a.is_in_molecule then a.molecule
  else ⟨a.position, a.velocity, a.rotation_axis, a.rotation_speed, atomMass, atomSize, false⟩

/-- Embeds `CollisionInfo` as consumed by `resolveCollision`. -/
structure Manifold where
  atomA : AtomBody
  atomB : AtomBody
  contactPoint : Vec3
  contactNormal : Vec3
  penetrationDepth : ℚ
deriving DecidableEq

/-- The `lerp` helper local to `resolveCollision`. -/
def lerpQ (a b t : ℚ) : ℚ := a + t * (b - a)

/-- The positional-correction step: both bodies' positions after the
inverse-mass-weighted push along the contact normal. -/
def correctedPositions (atomMass atomSize : ℚ) (m : Manifold) : Vec3 × Vec3 :=
  let objA := selectBody atomMass atomSize m.atomA
  let objB := selectBody atomMass atomSize m.atomB
  let totalMass := objA.mass + objB.mass
  let separationA := smul (m.penetrationDepth * objB.mass / totalMass) m.contactNormal
  let separationB := smul (m.penetrationDepth * objA.mass / totalMass) m.contactNormal
  (vsub objA.position separationA, vadd objB.position separationB)

/-- The normal component of relative contact-point velocity, computed (as in
the source) after the positional correction has moved both centers. -/
def normalVelocityOf (atomMass atomSize : ℚ) (m : Manifold) : ℚ :=
  let objA := selectBody atomMass atomSize m.atomA
  let objB := selectBody atomMass atomSize m.atomB
  let posA := (correctedPositions atomMass atomSize m).1
  let posB := (correctedPositions atomMass atomSize m).2
  let rA := vsub m.contactPoint posA
  let rB := vsub m.contactPoint posB
  let angularVelA := cross (smul objA.rotation_speed objA.rotation_axis) rA
  let angularVelB := cross (smul objB.rotation_speed objB.rotation_axis) rB
  let velA := vadd objA.velocity angularVelA
  let velB := vadd objB.velocity angularVelB
  dot (vsub velA velB) m.contactNormal

/-- The contact moment arm `rA = contactPoint − objA.position` (taken, as in
the source, after the positional correction). -/
def contactArmA (atomMass atomSize : ℚ) (m : Manifold) : Vec3 :=
  vsub m.contactPoint (correctedPositions atomMass atomSize m).1

/-- The contact moment arm `rB = contactPoint − objB.position`. -/
def contactArmB (atomMass atomSize : ℚ) (m : Manifold) : Vec3 :=
  vsub m.contactPoint (correctedPositions atomMass atomSize m).2

/-- The solid-sphere moment of inertia `I = (2/5) * mass * radius²`. -/
def momentOf (mass radius : ℚ) : ℚ := (2 / 5) * mass * radius ^ 2

/-- The scalar impulse magnitude
`j = −(1+e)·vn / (1/mA + 1/mB + |rA×n|²/IA + |rB×n|²/IB)`
(`src/collision-detector.ts`, lines 290-302), with `radius = size/2` of the
respective resolved body. -/
def impulseMagnitudeOf (e atomMass atomSize : ℚ) (m : Manifold) : ℚ :=
  let objA := selectBody atomMass atomSize m.atomA
  let objB := selectBody atomMass atomSize m.atomB
  let rAxn := cross (contactArmA atomMass atomSize m) m.contactNormal
  let rBxn := cross (contactArmB atomMass atomSize m) m.contactNormal
  let momentA := momentOf objA.mass (objA.size / 2)
  let momentB := momentOf objB.mass (objB.size / 2)
  let denominator :=
    1 / objA.mass + 1 / objB.mass + lengthSq rAxn / momentA + lengthSq rBxn / momentB
  let j := -(1 + e) * normalVelocityOf atomMass atomSize m / denominator
  j

/-- Embeds `SATCollisionDetector.resolveCollision`.  Returns the post-collision
states of the two resolved bodies (`objA`, `objB`). -/
def resolveCollision (sqrtFn : ℚ → ℚ) (slerpFn : Vec3 → Vec3 → ℚ → Vec3)
    (lerpAmt e atomMass atomSize : ℚ) (m : Manifold) : ObjS × ObjS :=
  let objA := selectBody atomMass atomSize m.atomA
  let objB := selectBody atomMass atomSize m.atomB
  let massA := objA.mass
  let massB := objB.mass
  let totalMass := massA + massB
  let posA := (correctedPositions atomMass atomSize m).1
  let posB := (correctedPositions atomMass atomSize m).2
  let rA := contactArmA atomMass atomSize m
  let rB := contactArmB atomMass atomSize m
  let normalVelocity := normalVelocityOf atomMass atomSize m
  let objA1 := {objA with position := posA}
  let objB1 := {objB with position := posB}
  -- if objects are moving apart from each other (by the source's sign
  -- convention), skip the impulse entirely
  if normalVelocity < 0 then (objA1, objB1)
  else
    let momentA := momentOf massA (objA.size / 2)
    let momentB := momentOf massB (objB.size / 2)
    let impulseMagnitude := impulseMagnitudeOf e atomMass atomSize m
    let impulse := smul impulseMagnitude m.contactNormal
    let velA := vadd objA.velocity (smul (1 / massA) impulse)
    let velB := vsub objB.velocity (smul (1 / massB) impulse)
    let angularImpulseA := smul (1 / momentA) (cross rA impulse)
    let angularImpulseB := smul (-(1 / momentB)) (cross rB impulse)
    let newAngularVelA := vadd (smul objA.rotation_speed objA.rotation_axis) angularImpulseA
    let newAngularVelB := vadd (smul objB.rotation_speed objB.rotation_axis) angularImpulseB
    let objA2 :=
      if !objA.isMolecule then
        {objA1 with
          velocity := velA
          rotation_speed := vlength sqrtFn newAngularVelA
          rotation_axis := vnormalize sqrtFn newAngularVelA}
      else
        {objA1 with
          velocity := velA
          rotation_axis := slerpFn objA.rotation_axis (vnormalize sqrtFn newAngularVelA)
            (massA / totalMass * lerpAmt)
          rotation_speed := lerpQ objA.rotation_speed (vlength sqrtFn newAngularVelA)
            (massA / totalMass * lerpAmt)}
    let objB2 :=
      if !objB.isMolecule then
        {objB1 with
          velocity := velB
          rotation_speed := vlength sqrtFn newAngularVelB
          rotation_axis := vnormalize sqrtFn newAngularVelB}
      else
        -- source quirks kept verbatim: B's blend weight also uses massA's
        -- share, and B's blended speed targets newAngularVelA's magnitude
        {objB1 with
          velocity := velB
          rotation_axis := slerpFn objB.rotation_axis (vnormalize sqrtFn newAngularVelB)
            (massA / totalMass * lerpAmt)
          rotation_speed := lerpQ objB.rotation_speed (vlength sqrtFn newAngularVelA)
            (massA / totalMass * lerpAmt)}
    (objA2, objB2)

/-! ## Axis-aligned bounding boxes

`Atom.updateBoundingBox` computes `Box3.expandByObject(this)`, the axis-aligned
box of the world-transformed cube: for a cube of edge `s` whose world rotation
columns are `u1,u2,u3` (orthonormal) and whose world position is `pos`, each
coordinate extent is the sum of the absolute column components times `s/2`. -/

/-- Embeds `Box3`. -/
structure Box where
  bmin : Vec3
  bmax : Vec3
deriving DecidableEq

/-- The world-space AABB of a posed cube of edge `s`. -/
def computeAABB (s : ℚ) (u1 u2 u3 pos : Vec3) : Box :=
  let r : Vec3 := ⟨(|u1.x| + |u2.x| + |u3.x|) * s / 2,
                   (|u1.y| + |u2.y| + |u3.y|) * s / 2,
                   (|u1.z| + |u2.z| + |u3.z|) * s / 2⟩
  ⟨vsub pos r, vadd pos r⟩

/-- Embeds `Box3.intersectsBox`-style geometric overlap of two AABBs. -/
def aabbOverlap (b1 b2 : Box) : Prop :=
  b1.bmin.x ≤ b2.bmax.x ∧ b2.bmin.x ≤ b1.bmax.x ∧
  b1.bmin.y ≤ b2.bmax.y ∧ b2.bmin.y ≤ b1.bmax.y ∧
  b1.bmin.z ≤ b2.bmax.z ∧ b2.bmin.z ≤ b1.bmax.z

instance (b1 b2 : Box) : Decidable (aabbOverlap b1 b2) := by
  unfold aabbOverlap; infer_instance

/-! ## Broad phase, grid strategy: `SpacePartition`
(`src/collision-detector.ts`, lines 14-105)

`S` is `Config.simulation_size`, `g` is `this._grid_size = Config.atom_size`.
The 4-dimensional grid array is modelled as the list of `(address, atom)`
entries that `fillGrid` pushes; a JS `Set` is modelled as a first-insertion
ordered duplicate-free list. -/

/-- A body as seen by the broad phase: key, world position, orientation
columns (used only to form its AABB) and aggregate-membership flags. -/
structure AtomS where
  key : ℕ
  pos : Vec3
  u1 : Vec3
  u2 : Vec3
  u3 : Vec3
  molecule_id : ℤ
  is_in_molecule : Bool
deriving DecidableEq

instance : Inhabited AtomS := ⟨⟨0, ⟨0, 0, 0⟩, ⟨1, 0, 0⟩, ⟨0, 1, 0⟩, ⟨0, 0, 1⟩, -1, false⟩⟩

/-- The AABB of a broad-phase body (`Atom.getBoundingBox`). -/
def atomAABB (s : ℚ) (a : AtomS) : Box := computeAABB s a.u1 a.u2 a.u3 a.pos

/-- Embeds `SpacePartition.getAddress`: clamped integer cell coordinates. -/
def getAddress (S g : ℚ) (a : AtomS) : ℤ × ℤ × ℤ :=
  (⌊min (S / g) (max 0 ((a.pos.x + S / 2) / g))⌋,
   ⌊min (S / g) (max 0 ((a.pos.y + S / 2) / g))⌋,
   ⌊min (S / g) (max 0 ((a.pos.z + S / 2) / g))⌋)

/-- Embeds `SpacePartition._num_rows = Math.floor(S / g) + 1` (also the length of
`this._grid`). -/
def numRows (S g : ℚ) : ℤ := ⌊S / g⌋ + 1

/-- Embeds `SpacePartition.fillGrid`: push each atom into its cell — but only when
`x && y && z` is truthy, i.e. when no address coordinate is `0`. -/
def fillGrid (S g : ℚ) (atoms : List AtomS) : List ((ℤ × ℤ × ℤ) × AtomS) :=
  atoms.foldl
    (fun acc a =>
      let ad := getAddress S g a
      if ad.1 ≠ 0 ∧ ad.2.1 ≠ 0 ∧ ad.2.2 ≠ 0 then acc ++ [(ad, a)] else acc)
    []

/-- The contents of one grid cell, in insertion order. -/
def cellAtoms (grid : List ((ℤ × ℤ × ℤ) × AtomS)) (ad : ℤ × ℤ × ℤ) : List AtomS :=
  (grid.filter fun e => e.1 = ad).map (·.2)

/-- The 27 neighbor offsets (`this._NEIGHBORS`), in construction order.
`Math.floor` is the identity on these integer-valued operands. -/
def gridNeighborOffsets : List (ℤ × ℤ × ℤ) :=
  (List.range 27).map fun i =>
    ((i % 3 : ℤ) - 1, ((i / 3) % 3 : ℤ) - 1, ((i / 9) % 3 : ℤ) - 1)

/-- JS `Set.add`: append only when absent (first-insertion order). -/
def jsSetInsert {α : Type} [DecidableEq α] (acc : List α) (k : α) : List α :=
  if k ∈ acc then acc else acc ++ [k]

/-- The JS `Set` accumulated over a list of insertions. -/
def jsSetOfList {α : Type} [DecidableEq α] (l : List α) : List α :=
  l.foldl jsSetInsert []

/-- The canonical ordered key pair (`key < key2 ? 'k-k2' : 'k2-k'`). -/
def canonPair (k1 k2 : ℕ) : ℕ × ℕ := if k1 < k2 then (k1, k2) else (k2, k1)

/-- The candidate key pairs inserted by the nested loops of
`detectSpacePartitionCollisions`, in insertion order: for each atom, for each
of the 27 neighbor cells passing the bounds test, every cell occupant with a
different key that is not a same-aggregate partner. -/
def gridCandidateInserts (S g : ℚ) (atoms : List AtomS) : List (ℕ × ℕ) :=
  let grid := fillGrid S g atoms
  atoms.flatMap fun atom =>
    let ad := getAddress S g atom
    gridNeighborOffsets.flatMap fun nb =>
      let a := ad.1 + nb.1
      let b := ad.2.1 + nb.2.1
      let c := ad.2.2 + nb.2.2
      if a ≠ -1 ∧ b ≠ -1 ∧ c ≠ -1 ∧ a < numRows S g ∧ b < numRows S g ∧ c < numRows S g then
        ((cellAtoms grid (a, b, c)).filter fun atom2 => atom2.key ≠ atom.key).filterMap
          fun atom2 =>
            if atom.molecule_id = atom2.molecule_id ∧ atom.is_in_molecule then none
            else some (canonPair atom.key atom2.key)
      else []

/-- Embeds `SpacePartition.detectSpacePartitionCollisions`: deduplicate the inserted
key pairs, then materialize `[this._atoms[keyA], this._atoms[keyB]]`. -/
def detectSpacePartitionCollisions (S g : ℚ) (atoms : List AtomS) :
    List (AtomS × AtomS) :=
  (jsSetOfList (gridCandidateInserts S g atoms)).map fun kp =>
    (atoms.getD kp.1 default, atoms.getD kp.2 default)

/-! ## Broad phase, sweep-and-prune strategy: `SweepAndPrune`
(`src/unnamed/part_000`, lines 14-97)

`sortAxis` sorts with the comparator `(a, b) => axis.getMax(a) -
axis.getMin(b)`, which is not a consistent comparator, so the order produced
by `Array.prototype.sort` is implementation-defined; the embedding therefore
takes the three sorted lists as parameters, covering every order the sort
could produce. -/

/-- The inner `j` loop of `sweepAxis` for one left endpoint `a`: scan forward
until `axis.getMin(atomB) > axis.getMax(atomA)` breaks the loop, emitting the
canonical key pair for every atom scanned. -/
def sweepInner (getMin getMax : AtomS → ℚ) (a : AtomS) (l : List AtomS) : List (ℕ × ℕ) :=
  (l.takeWhile fun b => ¬(getMin b > getMax a)).map fun b => canonPair a.key b.key

/-- The pairs inserted by the two nested loops of `sweepAxis`, in order. -/
def sweepInserts (getMin getMax : AtomS → ℚ) : List AtomS → List (ℕ × ℕ)
  | [] => []
  | a :: rest => sweepInner getMin getMax a rest ++ sweepInserts getMin getMax rest

/-- Embeds `SweepAndPrune.sweepAxis` (the returned JS `Set`). -/
def sweepAxis (getMin getMax : AtomS → ℚ) (sorted : List AtomS) : List (ℕ × ℕ) :=
  jsSetOfList (sweepInserts getMin getMax sorted)

/-- Embeds `SweepAndPrune.detectSAPCollisions`: intersect the three per-axis overlap
sets, look the two keys up in `this._atoms`, and drop same-aggregate pairs.
The constant `false` is the third component of the source's `CollisionPair`
triple. -/
def detectSAPCollisions (s : ℚ) (sortedX sortedY sortedZ atoms : List AtomS) :
    List (AtomS × AtomS × Bool) :=
  let xOverlaps := sweepAxis (fun a => (atomAABB s a).bmin.x) (fun a => (atomAABB s a).bmax.x) sortedX
  let yOverlaps := sweepAxis (fun a => (atomAABB s a).bmin.y) (fun a => (atomAABB s a).bmax.y) sortedY
  let zOverlaps := sweepAxis (fun a => (atomAABB s a).bmin.z) (fun a => (atomAABB s a).bmax.z) sortedZ
  xOverlaps.flatMap fun kp =>
    if kp ∈ yOverlaps ∧ kp ∈ zOverlaps then
      match atoms.find? (fun x => x.key = kp.1), atoms.find? (fun x => x.key = kp.2) with
      | some cubeA, some cubeB =>
        if cubeA.molecule_id = cubeB.molecule_id ∧ cubeA.is_in_molecule then []
        else [(cubeA, cubeB, false)]
      | _, _ => []
    else []

/-! ## Bounding-box cache: `Atom` (`src/atom.ts`, lines 22-93)

The cache state of one atom: its pose (position plus world-rotation columns),
the cached `Box3`, and the dirty flag.  `recomputeCount` instruments how many
times `updateBoundingBox` has executed its body, so that "does not trigger
recomputation" is directly observable. -/

structure AtomCache where
  pos : Vec3
  u1 : Vec3
  u2 : Vec3
  u3 : Vec3
  size : ℚ
  boundingBox : Box
  boundingBoxDirty : Bool
  recomputeCount : ℕ
deriving DecidableEq

/-- Embeds `Atom.updateBoundingBox`: throws on a non-dirty box, otherwise recomputes
the box from the current pose and clears the flag. -/
def updateBoundingBox (s : AtomCache) : Except String AtomCache :=
  if !s.boundingBoxDirty then
    Except.error ("Updating a non-dirty bounding box.")
  else
    Except.ok
      {s with
        boundingBox := computeAABB s.size s.u1 s.u2 s.u3 s.pos
        boundingBoxDirty := false
        recomputeCount := s.recomputeCount + 1}

/-- Embeds `Atom.getBoundingBox`: recompute when dirty, then return the cached box.
The `error` arm is unreachable because `updateBoundingBox` succeeds on every
dirty state. -/
def getBoundingBox (s : AtomCache) : Box × AtomCache :=
  if s.boundingBoxDirty then
    match updateBoundingBox s with
    | Except.ok s' => (s'.boundingBox, s')
    | Except.error _ => (s.boundingBox, s)
  else (s.boundingBox, s)

/-! ## Per-tick leaf integration: `Atom.update` (`src/atom.ts`, lines 95-130)

`rotateOnAxis` composes a trigonometric quaternion rotation into the world
matrix; it is abstracted as the parameter `rotFn` (from orientation columns,
axis and angle to new orientation columns).  The source's
`velocity.length() > 1` is rendered as the exactly equivalent
`lengthSq velocity > 1`.  The branch `if (rotation_speed > 0.2) {
this.rotation_speed }` consists of an expression statement with no effect, so
it contributes nothing to the embedding. -/

structure AtomU where
  pos : Vec3
  u1 : Vec3
  u2 : Vec3
  u3 : Vec3
  velocity : Vec3
  rotation_axis : Vec3
  rotation_speed : ℚ
  molecule_id : ℤ

/-- The first block of `Atom.update`: a free atom (`molecule_id == -1`)
rotates about its axis and translates by its velocity. -/
def integrateStep (rotFn : Vec3 × Vec3 × Vec3 → Vec3 → ℚ → Vec3 × Vec3 × Vec3)
    (a : AtomU) : AtomU :=
  if a.molecule_id = -1 then
    let o := rotFn (a.u1, a.u2, a.u3) a.rotation_axis a.rotation_speed
    {a with u1 := o.1, u2 := o.2.1, u3 := o.2.2, pos := vadd a.pos a.velocity}
  else a

/-- The damping block of `Atom.update`: shrink the velocity by `0.99` when
`velocity.length() > 1`; the following `if (rotation_speed > 0.2) {
this.rotation_speed }` is an expression statement with no effect and
contributes nothing. -/
def dampStep (a : AtomU) : AtomU :=
  if lengthSq a.velocity > 1 then {a with velocity := smul (99 / 100) a.velocity} else a

/-- One velocity component through its two wall tests: `v = -Math.abs(v)`
when the box max crossed the upper wall, then `v = Math.abs(v)` when the box
min crossed the lower wall. -/
def bounceComp (hitMax hitMin : Bool) (t : ℚ) : ℚ :=
  let t1 := if hitMax then -|t| else t
  if hitMin then |t1| else t1

/-- The six wall tests of `Atom.update`.  The source runs them in the order
max-x, max-y, max-z, min-x, min-y, min-z; each test touches only its own
component, so the per-component pairing computes the identical velocity. -/
def bounceStep (S s : ℚ) (a : AtomU) : AtomU :=
  let bb := computeAABB s a.u1 a.u2 a.u3 a.pos
  {a with velocity :=
    ⟨bounceComp (decide (bb.bmax.x > S / 2)) (decide (bb.bmin.x < -(S / 2))) a.velocity.x,
     bounceComp (decide (bb.bmax.y > S / 2)) (decide (bb.bmin.y < -(S / 2))) a.velocity.y,
     bounceComp (decide (bb.bmax.z > S / 2)) (decide (bb.bmin.z < -(S / 2))) a.velocity.z⟩}

/-- Embeds `Atom.update`.  `S` is `Config.simulation_size`, `s` is
`Config.atom_size`. -/
def atomUpdate (rotFn : Vec3 × Vec3 × Vec3 → Vec3 → ℚ → Vec3 × Vec3 × Vec3)
    (S s : ℚ) (a : AtomU) : AtomU :=
  bounceStep S s (dampStep (integrateStep rotFn a))

/-! ## Aggregates: `Molecule` (`src/molecule.ts`) and the merge branch of
`Main.animate` (`src/index.ts`, lines 380-392)

`m` is `Config.atom_mass` throughout.  Scene-graph operations (`attach`,
pivot-group rebuilding, `BoxHelper`) have no bearing on the claims below and
are omitted from the state. -/

/-- Embeds `Vector3.lerp`. -/
def vlerp (a b : Vec3) (t : ℚ) : Vec3 := vadd a (smul t (vsub b a))

/-- A molecule's motion state as touched by `Molecule.addAtom`: member count,
velocity, angular state. -/
structure MolA where
  len : ℕ
  velocity : Vec3
  rotation_speed : ℚ
  rotation_axis : Vec3
deriving DecidableEq

/-- The motion state of an atom being absorbed. -/
structure AtomM where
  velocity : Vec3
  rotation_speed : ℚ
  rotation_axis : Vec3
deriving DecidableEq

/-- Embeds `Molecule.addAtom`: push the atom, conserve linear momentum against the
prior total mass, blend the angular state, then zero the atom's own motion.
Returns the updated molecule and the zeroed atom. -/
def addAtom (sqrtFn : ℚ → ℚ) (m : ℚ) (mol : MolA) (atom : AtomM) : MolA × AtomM :=
  let initialMass := (mol.len : ℚ) * m
  let len' := mol.len + 1
  let currentMass := (len' : ℚ) * m
  let initialMomentum := smul initialMass mol.velocity
  let newAtomMomentum := smul m atom.velocity
  let finalMomentum := vadd initialMomentum newAtomMomentum
  let newVelocity := smul (1 / currentMass) finalMomentum
  let currentRotationalMomentum := mol.rotation_speed * initialMass
  let atomRM := atom.rotation_speed * m
  let newRM := currentRotationalMomentum + atomRM
  let newRS := newRM / currentMass
  let newAxis := vnormalize sqrtFn (vlerp mol.rotation_axis atom.rotation_axis (m / currentMass))
  (⟨len', newVelocity, newRS, newAxis⟩,
   {atom with velocity := smul 0 atom.velocity, rotation_speed := 0})

/-- The `Molecule` constructor: zero-initialized motion state, then
`addAtom(atom1); addAtom(atom2)`. -/
def mkMolecule (sqrtFn : ℚ → ℚ) (m : ℚ) (atom1 atom2 : AtomM) : MolA :=
  let mol0 : MolA := ⟨0, ⟨0, 0, 0⟩, 0, vnormalize sqrtFn ⟨0, 0, 0⟩⟩
  let step1 := addAtom sqrtFn m mol0 atom1
  (addAtom sqrtFn m step1.1 atom2).1

/-- An aggregate as tracked by `Main.molecules`: its `id`, its member atom
keys, and its velocity. -/
structure MolO where
  mid : ℕ
  atomKeys : List ℕ
  velocity : Vec3
deriving DecidableEq

/-- An atom's ownership record. -/
structure AtomOwn where
  key : ℕ
  molecule_id : ℤ
  is_in_molecule : Bool
deriving DecidableEq

/-- Embeds `Molecule.addMolecule`: conserve momentum across the two total masses,
flatten the absorbed aggregate's members into the survivor, and point each
absorbed atom's ownership at the survivor (`atom.setMolecule(this)`).
Returns the mutated survivor and the updated atom store. -/
def addMolecule (m : ℚ) (this other : MolO) (store : List AtomOwn) :
    MolO × List AtomOwn :=
  let m1 := (this.atomKeys.length : ℚ) * m
  let m2 := (other.atomKeys.length : ℚ) * m
  let p1 := smul m1 this.velocity
  let p2 := smul m2 other.velocity
  let newVelocity := smul (1 / (m1 + m2)) (vadd p1 p2)
  let this' := {this with velocity := newVelocity, atomKeys := this.atomKeys ++ other.atomKeys}
  let store' := store.map fun a =>
    if a.key ∈ other.atomKeys then {a with molecule_id := (this.mid : ℤ), is_in_molecule := true}
    else a
  (this', store')

/-- The driver state the tick loop iterates over: `Main.molecules` (the
active aggregate table, iterated as `Object.values(this.molecules)`) and the
atom store. -/
structure WorldW where
  molecules : List (ℕ × MolO)
  atoms : List AtomOwn
deriving DecidableEq

/-- Embeds `Main.molecules[id]`. -/
def lookupMol (w : WorldW) (i : ℕ) : Option MolO :=
  (w.molecules.find? fun e => e.1 = i).map (·.2)

/-- The `atom1.is_in_molecule && atom2.is_in_molecule` branch of
`Main.animate`: the heavier aggregate absorbs the lighter via `addMolecule`,
and the loser is removed from the scene graph (`this._scene.remove`) — but
its entry in `this.molecules` is left in place. -/
def mergeMolecules (m : ℚ) (w : WorldW) (id1 id2 : ℕ) : WorldW :=
  match lookupMol w id1, lookupMol w id2 with
  | some mol1, some mol2 =>
    if (mol1.atomKeys.length : ℚ) * m > (mol2.atomKeys.length : ℚ) * m then
      let r := addMolecule m mol1 mol2 w.atoms
      ⟨w.molecules.map fun e => if e.1 = id1 then (e.1, r.1) else e, r.2⟩
    else
      let r := addMolecule m mol2 mol1 w.atoms
      ⟨w.molecules.map fun e => if e.1 = id2 then (e.1, r.1) else e, r.2⟩
  | _, _ => w

/-! ## Concrete instances used by the theorems below -/

/-- A cube in identity orientation centered at `c`. -/
def idPoseAt (c : Vec3) : Pose := ⟨c, ⟨1, 0, 0⟩, ⟨0, 1, 0⟩, ⟨0, 0, 1⟩⟩

/-- A cube rotated about the z axis by the 3-4-5 angle, centered at `c`
(orthonormal rational columns, so all square roots taken during the SAT test
are square roots of perfect rational squares). -/
def rot345PoseAt (c : Vec3) : Pose :=
  ⟨c, ⟨3/5, 4/5, 0⟩, ⟨-(4/5), 3/5, 0⟩, ⟨0, 0, 1⟩⟩

/-- A free (unowned) broad-phase atom in identity orientation. -/
def freeAtomS (key : ℕ) (pos : Vec3) : AtomS :=
  ⟨key, pos, ⟨1, 0, 0⟩, ⟨0, 1, 0⟩, ⟨0, 0, 1⟩, -1, false⟩

/-- A body used by the resolver witnesses when the atom is free (the
`molecule` field is never read then). -/
def dummyObj : ObjS := ⟨⟨0, 0, 0⟩, ⟨0, 0, 0⟩, ⟨0, 0, 1⟩, 0, 1, 1, true⟩

/-- A free resolver-level atom at `pos` with velocity `vel` and no spin. -/
def freeAtomBody (pos vel : Vec3) : AtomBody :=
  ⟨pos, vel, ⟨0, 0, 1⟩, 0, false, dummyObj⟩

/-- A head-on manifold whose bodies are moving apart (A drifts away from B):
the relative contact velocity along the normal is `-1 < 0`. -/
def manifoldSep : Manifold :=
  ⟨freeAtomBody ⟨0, 0, 0⟩ ⟨-1, 0, 0⟩, freeAtomBody ⟨2, 0, 0⟩ ⟨0, 0, 0⟩,
   ⟨1, 0, 0⟩, ⟨1, 0, 0⟩, 0⟩

/-- The same geometry with A approaching B: normal velocity `1 ≥ 0`. -/
def manifoldApp : Manifold :=
  ⟨freeAtomBody ⟨0, 0, 0⟩ ⟨1, 0, 0⟩, freeAtomBody ⟨2, 0, 0⟩ ⟨0, 0, 0⟩,
   ⟨1, 0, 0⟩, ⟨1, 0, 0⟩, 0⟩

/-- A `slerp` interpretation used by the witnesses. -/
def slerpKeep : Vec3 → Vec3 → ℚ → Vec3 := fun a _ _ => a

/-- Witness molecule state for the momentum theorem: two members moving at
`(1,0,0)`. -/
def molWitness : MolA := ⟨2, ⟨1, 0, 0⟩, 0, ⟨1, 0, 0⟩⟩

/-- Witness atom states for the momentum theorem. -/
def atomWitness : AtomM := ⟨⟨4, 0, 0⟩, 0, ⟨1, 0, 0⟩⟩

def atomWitness1 : AtomM := ⟨⟨1, 2, 3⟩, 0, ⟨1, 0, 0⟩⟩

def atomWitness2 : AtomM := ⟨⟨3, 4, 5⟩, 0, ⟨1, 0, 0⟩⟩

/-- A dirty bounding-box cache state (cached box deliberately stale). -/
def cacheDirty : AtomCache :=
  ⟨⟨7, 0, 0⟩, ⟨1, 0, 0⟩, ⟨0, 1, 0⟩, ⟨0, 0, 1⟩, 2, ⟨⟨9, 9, 9⟩, ⟨9, 9, 9⟩⟩, true, 0⟩

/-- The same state already clean. -/
def cacheClean : AtomCache :=
  ⟨⟨7, 0, 0⟩, ⟨1, 0, 0⟩, ⟨0, 1, 0⟩, ⟨0, 0, 1⟩, 2, ⟨⟨6, -1, -1⟩, ⟨8, 1, 1⟩⟩, false, 1⟩

/-- Two coincident free atoms whose grid address is `(0, 16, 16)` under the
default configuration (`simulation_size = 100`, `atom_size = 3`): the
`x && y && z` truthiness test in `fillGrid` drops both. -/
def c1Atom0 : AtomS := freeAtomS 0 ⟨-50, 0, 0⟩

def c1Atom1 : AtomS := freeAtomS 1 ⟨-50, 0, 0⟩

/-- Sweep-and-prune scene: `sapAtomA` and `sapAtomB` overlap on every axis,
`sapAtomC` is far away on x. -/
def sapAtomA : AtomS := freeAtomS 0 ⟨0, 0, 0⟩

def sapAtomB : AtomS := freeAtomS 1 ⟨1, 0, 0⟩

def sapAtomC : AtomS := freeAtomS 2 ⟨10, 0, 0⟩

/-- Aggregates of 3 and 2 members for the merge step. -/
def c2Mol1 : MolO := ⟨1, [0, 1, 2], ⟨1, 0, 0⟩⟩

def c2Mol2 : MolO := ⟨2, [3, 4], ⟨0, 1, 0⟩⟩

def c2World : WorldW :=
  ⟨[(1, c2Mol1), (2, c2Mol2)],
   [⟨0, 1, true⟩, ⟨1, 1, true⟩, ⟨2, 1, true⟩, ⟨3, 2, true⟩, ⟨4, 2, true⟩]⟩

/-- The manifold returned for the identity cube at the origin against the
3-4-5-rotated cube at `(4/5, 2/5, 0)` (edge length 1): the first axis tested
— A's x axis — attains the minimum overlap `2/5`. -/
def cinfoAB345 : CInfo := ⟨⟨2/5, 1/5, 0⟩, ⟨1, 0, 0⟩, 2/5, false⟩

/-- The manifold returned with the two cubes swapped: now B's first local
axis `(3/5, 4/5, 0)` is tested first, ties with the x axis at overlap `2/5`,
and wins; oriented toward the identity cube it comes out as
`(-3/5, -4/5, 0)`, which is not the negation of `(1, 0, 0)`. -/
def cinfoBA345 : CInfo := ⟨⟨2/5, 1/5, 0⟩, ⟨-(3/5), -(4/5), 0⟩, 2/5, false⟩

/-- Proof scaffolding (not part of the embedding): the running-minimum
update of the `findCollisionInfo` loop on the overlap component alone, with
`none` standing for the initial `Infinity`. -/
def oMin (o : Option ℚ) (v : ℚ) : Option ℚ :=
  some (match o with
    | none => v
    | some m => min v m)

/-- Proof scaffolding (not part of the embedding): `(separated, overlap)` as
a function of the two signed interval gaps `d1 = maxA − minB` and
`d2 = maxB − minA`. -/
def sepOv (d1 d2 : ℚ) : Bool × ℚ :=
  let separated : Bool := !(decide (0 ≤ d1) && decide (0 ≤ d2))
  (separated, if separated then 0 else min d1 d2)

/-! ## Theorems -/

@[ext] theorem Vec3.ext' {a b : Vec3} (hx : a.x = b.x) (hy : a.y = b.y)
    (hz : a.z = b.z) : a = b := by
  cases a; cases b; simp_all

theorem lengthSq_vneg (a : Vec3) : lengthSq (vneg a) = lengthSq a := by
  simp [lengthSq, vneg]

theorem vnormalize_vneg (sqrtFn : ℚ → ℚ) (a : Vec3) :
    vnormalize sqrtFn (vneg a) = vneg (vnormalize sqrtFn a) := by
  unfold vnormalize
  rw [lengthSq_vneg]
  exact Vec3.ext' (by simp [smul, vneg]) (by simp [smul, vneg]) (by simp [smul, vneg])

theorem cross_antisymm (a b : Vec3) : cross b a = vneg (cross a b) := by
  refine Vec3.ext' ?_ ?_ ?_ <;> simp [cross, vneg] <;> ring

unseal Rat.mul Rat.inv Rat.add Rat.sub in
/-- C7: for two cubes of edge length 1 in identity orientation, the
narrow-phase test on centers `(0,0,0)` and `(3,0,0)` returns no collision,
and on centers `(0,0,0)` and `(0.8,0,0)` returns a collision whose normal is
`(1,0,0)` (pointing from A toward B) and whose penetration depth is `0.2`
(contact point at the midpoint `(0.4,0,0)`). -/
theorem sat_concrete_examples :
    findCollisionInfo ratSqrt false 1 (idPoseAt ⟨0, 0, 0⟩) (idPoseAt ⟨3, 0, 0⟩) = none ∧
    findCollisionInfo ratSqrt false 1 (idPoseAt ⟨0, 0, 0⟩) (idPoseAt ⟨4/5, 0, 0⟩) =
      some ⟨⟨2/5, 0, 0⟩, ⟨1, 0, 0⟩, 1/5, false⟩ := by
  decide

/-- C3: immediately after `Molecule.addAtom`, the molecule's velocity is the
exact mass-weighted average of its prior momentum and the absorbed atom's
momentum; in particular a molecule freshly built from two equal-mass atoms
with velocities `v1`, `v2` moves at `(v1+v2)/2`. -/
theorem addAtom_momentum_conservation (sqrtFn : ℚ → ℚ) (m : ℚ) (hm : m ≠ 0) :
    (∀ (mol : MolA) (atom : AtomM),
      (addAtom sqrtFn m mol atom).1.velocity =
        smul (1 / ((mol.len : ℚ) * m + m))
          (vadd (smul ((mol.len : ℚ) * m) mol.velocity) (smul m atom.velocity))) ∧
    (∀ atom1 atom2 : AtomM,
      (mkMolecule sqrtFn m atom1 atom2).velocity =
        smul (1/2) (vadd atom1.velocity atom2.velocity)) := by
  constructor
  · intro mol atom
    refine Vec3.ext' ?_ ?_ ?_ <;>
      · simp only [addAtom, smul, vadd]
        push_cast
        ring_nf
  · intro atom1 atom2
    refine Vec3.ext' ?_ ?_ ?_ <;>
      · simp only [mkMolecule, addAtom, smul, vadd]
        push_cast
        field_simp
        ring_nf

theorem addAtom_momentum_conservation_witness :
    (1 : ℚ) ≠ 0 ∧
    ((addAtom ratSqrt 1 molWitness atomWitness).1.velocity =
      smul (1 / ((molWitness.len : ℚ) * 1 + 1))
        (vadd (smul ((molWitness.len : ℚ) * 1) molWitness.velocity)
          (smul 1 atomWitness.velocity))) ∧
    ((mkMolecule ratSqrt 1 atomWitness1 atomWitness2).velocity =
      smul (1/2) (vadd atomWitness1.velocity atomWitness2.velocity)) :=
  ⟨by norm_num,
   (addAtom_momentum_conservation ratSqrt 1 (by norm_num)).1 molWitness atomWitness,
   (addAtom_momentum_conservation ratSqrt 1 (by norm_num)).2 atomWitness1 atomWitness2⟩

/-- C8: `getBoundingBox` on a dirty cache recomputes the box from the current
pose before returning; a second call with no mutation in between returns the
identical box and state and does not recompute (the recompute counter is
unchanged); and `updateBoundingBox` on an already-clean cache throws. -/
theorem boundingBox_cache_contract (s : AtomCache) :
    (s.boundingBoxDirty = true →
      (getBoundingBox s).1 = computeAABB s.size s.u1 s.u2 s.u3 s.pos) ∧
    (getBoundingBox (getBoundingBox s).2 = ((getBoundingBox s).1, (getBoundingBox s).2) ∧
      (getBoundingBox (getBoundingBox s).2).2.recomputeCount =
        (getBoundingBox s).2.recomputeCount) ∧
    (s.boundingBoxDirty = false →
      updateBoundingBox s = Except.error ("Updating a non-dirty bounding box.")) := by
  refine ⟨fun hd => ?_, ⟨?_, ?_⟩, fun hd => ?_⟩
  · simp [getBoundingBox, updateBoundingBox, hd]
  · by_cases hd : s.boundingBoxDirty <;> simp [getBoundingBox, updateBoundingBox, hd]
  · by_cases hd : s.boundingBoxDirty <;> simp [getBoundingBox, updateBoundingBox, hd]
  · simp [updateBoundingBox, hd]

unseal Rat.mul Rat.inv Rat.add Rat.sub in
theorem boundingBox_cache_contract_witness :
    (cacheDirty.boundingBoxDirty = true ∧
      (getBoundingBox cacheDirty).1 =
        computeAABB cacheDirty.size cacheDirty.u1 cacheDirty.u2 cacheDirty.u3 cacheDirty.pos) ∧
    (cacheClean.boundingBoxDirty = false ∧
      updateBoundingBox cacheClean = Except.error ("Updating a non-dirty bounding box.")) :=
  ⟨⟨by decide, (boundingBox_cache_contract cacheDirty).1 (by decide)⟩,
   ⟨by decide, (boundingBox_cache_contract cacheClean).2.2 (by decide)⟩⟩

/-- C4: when the manifold's bodies are moving apart under the source's sign
convention (`normalVelocity < 0`), `resolveCollision` leaves both bodies'
velocities, rotation axes and rotation speeds exactly as they were and only
applies the positional correction. -/
theorem separating_contact_skip (sqrtFn : ℚ → ℚ) (slerpFn : Vec3 → Vec3 → ℚ → Vec3)
    (lerpAmt e atomMass atomSize : ℚ) (man : Manifold)
    (h : normalVelocityOf atomMass atomSize man < 0) :
    resolveCollision sqrtFn slerpFn lerpAmt e atomMass atomSize man =
      ({selectBody atomMass atomSize man.atomA with
          position := (correctedPositions atomMass atomSize man).1},
       {selectBody atomMass atomSize man.atomB with
          position := (correctedPositions atomMass atomSize man).2}) := by
  simp only [resolveCollision]
  rw [if_pos h]

unseal Rat.mul Rat.inv Rat.add Rat.sub in
theorem separating_contact_skip_witness :
    normalVelocityOf 1 1 manifoldSep < 0 ∧
    resolveCollision ratSqrt slerpKeep 1 1 1 1 manifoldSep =
      ({selectBody 1 1 manifoldSep.atomA with
          position := (correctedPositions 1 1 manifoldSep).1},
       {selectBody 1 1 manifoldSep.atomB with
          position := (correctedPositions 1 1 manifoldSep).2}) :=
  ⟨by decide, separating_contact_skip ratSqrt slerpKeep 1 1 1 1 manifoldSep (by decide)⟩

/-- C6: when the separating check does not skip, the scalar impulse is
`j = −(1+e)·vn / (1/mA + 1/mB + |rA×n|²/IA + |rB×n|²/IB)` with solid-sphere
moments `I = (2/5)·mass·(size/2)²` of the resolved bodies (the owning
aggregate's mass and size when an atom is owned), and the linear velocities
change by `+j·n/mA` and `−j·n/mB` respectively. -/
theorem impulse_magnitude_applied (sqrtFn : ℚ → ℚ) (slerpFn : Vec3 → Vec3 → ℚ → Vec3)
    (lerpAmt e atomMass atomSize : ℚ) (man : Manifold)
    (h : 0 ≤ normalVelocityOf atomMass atomSize man) :
    (resolveCollision sqrtFn slerpFn lerpAmt e atomMass atomSize man).1.velocity =
      vadd (selectBody atomMass atomSize man.atomA).velocity
        (smul (impulseMagnitudeOf e atomMass atomSize man /
            (selectBody atomMass atomSize man.atomA).mass)
          man.contactNormal) ∧
    (resolveCollision sqrtFn slerpFn lerpAmt e atomMass atomSize man).2.velocity =
      vsub (selectBody atomMass atomSize man.atomB).velocity
        (smul (impulseMagnitudeOf e atomMass atomSize man /
            (selectBody atomMass atomSize man.atomB).mass)
          man.contactNormal) := by
  have hns : ¬(normalVelocityOf atomMass atomSize man < 0) := not_lt.mpr h
  constructor <;>
    · simp only [resolveCollision]
      rw [if_neg hns]
      split_ifs <;>
        · refine Vec3.ext' ?_ ?_ ?_ <;>
            · simp [vadd, vsub, smul]
              ring_nf

unseal Rat.mul Rat.inv Rat.add Rat.sub in
theorem impulse_magnitude_applied_witness :
    (0 ≤ normalVelocityOf 1 1 manifoldApp) ∧
    ((resolveCollision ratSqrt slerpKeep 1 1 1 1 manifoldApp).1.velocity =
      vadd (selectBody 1 1 manifoldApp.atomA).velocity
        (smul (impulseMagnitudeOf 1 1 1 manifoldApp / (selectBody 1 1 manifoldApp.atomA).mass)
          manifoldApp.contactNormal) ∧
     (resolveCollision ratSqrt slerpKeep 1 1 1 1 manifoldApp).2.velocity =
      vsub (selectBody 1 1 manifoldApp.atomB).velocity
        (smul (impulseMagnitudeOf 1 1 1 manifoldApp / (selectBody 1 1 manifoldApp.atomB).mass)
          manifoldApp.contactNormal)) :=
  ⟨by decide, impulse_magnitude_applied ratSqrt slerpKeep 1 1 1 1 manifoldApp (by decide)⟩

theorem integrateStep_velocity (rotFn : Vec3 × Vec3 × Vec3 → Vec3 → ℚ → Vec3 × Vec3 × Vec3)
    (a : AtomU) : (integrateStep rotFn a).velocity = a.velocity := by
  unfold integrateStep; split <;> rfl

theorem integrateStep_rotation_speed
    (rotFn : Vec3 × Vec3 × Vec3 → Vec3 → ℚ → Vec3 × Vec3 × Vec3) (a : AtomU) :
    (integrateStep rotFn a).rotation_speed = a.rotation_speed := by
  unfold integrateStep; split <;> rfl

theorem dampStep_rotation_speed (a : AtomU) :
    (dampStep a).rotation_speed = a.rotation_speed := by
  unfold dampStep; split <;> rfl

theorem lengthSq_dampStep (a : AtomU) :
    lengthSq (dampStep a).velocity =
      (if 1 < lengthSq a.velocity then (99/100)^2 * lengthSq a.velocity
       else lengthSq a.velocity) := by
  unfold dampStep
  split_ifs with h
  · simp only [lengthSq, smul]; ring
  · rfl

theorem bounceStep_rotation_speed (S s : ℚ) (a : AtomU) :
    (bounceStep S s a).rotation_speed = a.rotation_speed := rfl

theorem sq_bounceComp (hitMax hitMin : Bool) (t : ℚ) :
    bounceComp hitMax hitMin t * bounceComp hitMax hitMin t = t * t := by
  unfold bounceComp
  cases hitMax <;> cases hitMin <;>
    simp [neg_mul_neg, abs_mul_abs_self, abs_neg, abs_abs]

theorem lengthSq_bounceStep (S s : ℚ) (a : AtomU) :
    lengthSq (bounceStep S s a).velocity = lengthSq a.velocity := by
  simp only [bounceStep, lengthSq, sq_bounceComp]

/-- C10: `Atom.update` never changes `rotation_speed` (the branch guarded by
`rotation_speed > 0.2` is a no-op), and the squared speed of the linear
velocity is damped by the factor `0.99` exactly when its squared magnitude
exceeds 1 (the wall bounces only flip component signs). -/
theorem atom_update_rotation_speed_unchanged
    (rotFn : Vec3 × Vec3 × Vec3 → Vec3 → ℚ → Vec3 × Vec3 × Vec3) (S s : ℚ) (a : AtomU) :
    (atomUpdate rotFn S s a).rotation_speed = a.rotation_speed ∧
    lengthSq (atomUpdate rotFn S s a).velocity =
      (if 1 < lengthSq a.velocity then (99/100)^2 * lengthSq a.velocity
       else lengthSq a.velocity) := by
  constructor
  · rw [atomUpdate, bounceStep_rotation_speed, dampStep_rotation_speed,
      integrateStep_rotation_speed]
  · rw [atomUpdate, lengthSq_bounceStep, lengthSq_dampStep, integrateStep_velocity]

unseal Rat.mul Rat.inv Rat.add Rat.sub in
/-- C1 fails on the code (the claim is the intended broad-phase contract):
both strategies produce false negatives.  Grid: two coincident atoms at
`(-50,0,0)` (grid address `(0,16,16)` under the default `simulation_size =
100`, `atom_size = 3`) have identical, overlapping AABBs, yet
`detectSpacePartitionCollisions` returns no pair, because `fillGrid`'s
truthiness test `if (x && y && z)` drops every atom whose address has a zero
coordinate.  Sweep-and-prune: the comparator `(a, b) => getMax(a) -
getMin(b)` is inconsistent, so the sort order is implementation-defined;
under the admissible order `[A, C, B]` on x the early break at `C` hides the
overlapping pair `(A, B)`, and the returned set contains only `(B, C)`. -/
theorem broad_phase_false_negatives :
    (aabbOverlap (atomAABB 3 c1Atom0) (atomAABB 3 c1Atom1) ∧
      c1Atom0.key ≠ c1Atom1.key ∧
      detectSpacePartitionCollisions 100 3 [c1Atom0, c1Atom1] = []) ∧
    (aabbOverlap (atomAABB 3 sapAtomA) (atomAABB 3 sapAtomB) ∧
      sapAtomA.key ≠ sapAtomB.key ∧
      detectSAPCollisions 3 [sapAtomA, sapAtomC, sapAtomB]
          [sapAtomA, sapAtomB, sapAtomC] [sapAtomA, sapAtomB, sapAtomC]
          [sapAtomA, sapAtomB, sapAtomC] =
        [(sapAtomB, sapAtomC, false)]) := by
  decide

unseal Rat.mul Rat.inv Rat.add Rat.sub in
/-- C2 fails on the code (the claim is the documented lifecycle): after the
merge branch of `Main.animate` runs `mol1.addMolecule(mol2)` it removes
`mol2` from the scene graph only — `this.molecules[mol2.id]` is never
deleted, so the absorbed aggregate (id 2) is still present in the active
aggregate table (and is therefore updated again on every later tick), even
though every member atom of the absorbed aggregate does now report ownership
by the survivor (id 1). -/
theorem aggregate_retirement_violated :
    ((mergeMolecules 1 c2World 1 2).molecules.map Prod.fst = [1, 2]) ∧
    (lookupMol (mergeMolecules 1 c2World 1 2) 2 = some c2Mol2) ∧
    (∀ a ∈ (mergeMolecules 1 c2World 1 2).atoms,
      a.key ∈ c2Mol2.atomKeys → a.molecule_id = 1 ∧ a.is_in_molecule = true) := by
  decide

theorem mem_jsSetInsert {α : Type} [DecidableEq α] (x k : α) (acc : List α) :
    x ∈ jsSetInsert acc k ↔ x ∈ acc ∨ x = k := by
  unfold jsSetInsert
  split_ifs with h
  · constructor
    · exact Or.inl
    · rintro (hx | rfl)
      · exact hx
      · exact h
  · simp [List.mem_append]

theorem mem_foldl_jsSetInsert {α : Type} [DecidableEq α] (x : α) (l acc : List α) :
    x ∈ l.foldl jsSetInsert acc ↔ x ∈ acc ∨ x ∈ l := by
  induction l generalizing acc with
  | nil => simp
  | cons a t ih =>
    rw [List.foldl_cons, ih, mem_jsSetInsert]
    simp only [List.mem_cons]
    tauto

theorem mem_jsSetOfList {α : Type} [DecidableEq α] (x : α) (l : List α) :
    x ∈ jsSetOfList l ↔ x ∈ l := by
  rw [jsSetOfList, mem_foldl_jsSetInsert]
  simp

theorem mem_of_mem_fillGrid (S g : ℚ) (atoms : List AtomS)
    (e : (ℤ × ℤ × ℤ) × AtomS) (he : e ∈ fillGrid S g atoms) : e.2 ∈ atoms := by
  have key : ∀ (l : List AtomS) (acc : List ((ℤ × ℤ × ℤ) × AtomS)),
      e ∈ l.foldl
        (fun acc a =>
          let ad := getAddress S g a
          if ad.1 ≠ 0 ∧ ad.2.1 ≠ 0 ∧ ad.2.2 ≠ 0 then acc ++ [(ad, a)] else acc)
        acc →
      e ∈ acc ∨ e.2 ∈ l := by
    intro l
    induction l with
    | nil => intro acc h; exact Or.inl h
    | cons a t ih =>
      intro acc h
      rw [List.foldl_cons] at h
      rcases ih _ h with h' | h'
      · dsimp only [] at h'
        by_cases hc : ((getAddress S g a).1 ≠ 0 ∧ (getAddress S g a).2.1 ≠ 0 ∧
            (getAddress S g a).2.2 ≠ 0)
        · rw [if_pos hc] at h'
          rcases List.mem_append.mp h' with h'' | h''
          · exact Or.inl h''
          · simp at h''
            subst h''
            simp
        · rw [if_neg hc] at h'
          exact Or.inl h'
      · simp [h']
  rcases key atoms [] he with h | h
  · simp at h
  · exact h

theorem mem_of_mem_cellAtoms (grid : List ((ℤ × ℤ × ℤ) × AtomS)) (ad : ℤ × ℤ × ℤ)
    (x : AtomS) (hx : x ∈ cellAtoms grid ad) : ∃ e ∈ grid, e.2 = x := by
  simp only [cellAtoms, List.mem_map, List.mem_filter] at hx
  obtain ⟨e, ⟨heg, _⟩, hex⟩ := hx
  exact ⟨e, heg, hex⟩

theorem getD_of_key_index (atoms : List AtomS)
    (hidx : ∀ (i : ℕ) (h : i < atoms.length), (atoms.get ⟨i, h⟩).key = i)
    (a : AtomS) (ha : a ∈ atoms) : atoms.getD a.key default = a := by
  obtain ⟨⟨i, hi⟩, rfl⟩ := List.mem_iff_get.mp ha
  rw [hidx i hi]
  rw [List.getD_eq_getElem atoms default hi]
  simp [List.get_eq_getElem]

theorem gridCandidate_spec (S g : ℚ) (atoms : List AtomS) (kp : ℕ × ℕ)
    (hkp : kp ∈ gridCandidateInserts S g atoms) :
    ∃ a1 a2 : AtomS, a1 ∈ atoms ∧ a2 ∈ atoms ∧ a2.key ≠ a1.key ∧
      ¬(a1.molecule_id = a2.molecule_id ∧ a1.is_in_molecule = true) ∧
      kp = canonPair a1.key a2.key := by
  simp only [gridCandidateInserts, List.mem_flatMap] at hkp
  obtain ⟨atom, hatom, nb, _, hin⟩ := hkp
  by_cases hc : ((getAddress S g atom).1 + nb.1 ≠ -1 ∧ (getAddress S g atom).2.1 + nb.2.1 ≠ -1 ∧
      (getAddress S g atom).2.2 + nb.2.2 ≠ -1 ∧ (getAddress S g atom).1 + nb.1 < numRows S g ∧
      (getAddress S g atom).2.1 + nb.2.1 < numRows S g ∧
      (getAddress S g atom).2.2 + nb.2.2 < numRows S g)
  · rw [if_pos hc] at hin
    simp only [List.mem_filterMap, List.mem_filter] at hin
    obtain ⟨atom2, ⟨hcell, hkey⟩, hres⟩ := hin
    by_cases hskip : (atom.molecule_id = atom2.molecule_id ∧ atom.is_in_molecule = true)
    · rw [if_pos hskip] at hres
      exact absurd hres (by simp)
    · rw [if_neg hskip] at hres
      obtain ⟨e, heg, he2⟩ := mem_of_mem_cellAtoms _ _ _ hcell
      have h2 : atom2 ∈ atoms := he2 ▸ mem_of_mem_fillGrid S g atoms e heg
      refine ⟨atom, atom2, hatom, h2, ?_, hskip, ?_⟩
      · simpa using hkey
      · simpa using hres.symm
  · rw [if_neg hc] at hin
    exact absurd hin (by simp)

theorem canonPair_parts (k1 k2 : ℕ) :
    canonPair k1 k2 = (k1, k2) ∨ canonPair k1 k2 = (k2, k1) := by
  unfold canonPair
  split_ifs <;> simp

theorem sweepInserts_ne (getMin getMax : AtomS → ℚ) (l : List AtomS)
    (hnd : (l.map AtomS.key).Nodup) (kp : ℕ × ℕ)
    (h : kp ∈ sweepInserts getMin getMax l) : kp.1 ≠ kp.2 := by
  induction l with
  | nil => simp [sweepInserts] at h
  | cons a t ih =>
    rw [sweepInserts, List.mem_append] at h
    rcases h with h | h
    · simp only [sweepInner, List.mem_map] at h
      obtain ⟨b, hb, hkp⟩ := h
      have hbt : b ∈ t := (List.takeWhile_sublist _).subset hb
      have hk : a.key ≠ b.key := by
        intro he
        have : a.key ∈ t.map AtomS.key := List.mem_map.mpr ⟨b, hbt, he.symm⟩
        exact (List.nodup_cons.mp hnd).1 this
      subst hkp
      unfold canonPair
      split_ifs
      · simpa using hk
      · simpa using hk.symm
    · exact ih (List.nodup_cons.mp hnd).2 h

/-- C9: every candidate pair emitted by either broad-phase strategy consists
of two distinct body keys, and never has both members owned by the same
aggregate (membership read from the bodies' flags at emission time).  The
grid strategy assumes the program invariant `atoms[i].key == i` (established
by `createAtoms`); the sweep-and-prune strategy assumes only that the sorted
x list carries pairwise distinct keys, for any order the implementation-
defined sort may produce. -/
theorem broad_phase_same_aggregate_exclusion :
    (∀ (S g : ℚ) (atoms : List AtomS),
      (∀ (i : ℕ) (h : i < atoms.length), (atoms.get ⟨i, h⟩).key = i) →
      ∀ p ∈ detectSpacePartitionCollisions S g atoms,
        p.1.key ≠ p.2.key ∧
        ¬(p.1.is_in_molecule = true ∧ p.2.is_in_molecule = true ∧
          p.1.molecule_id = p.2.molecule_id)) ∧
    (∀ (s : ℚ) (sortedX sortedY sortedZ atoms : List AtomS),
      (sortedX.map AtomS.key).Nodup →
      ∀ p ∈ detectSAPCollisions s sortedX sortedY sortedZ atoms,
        p.1.key ≠ p.2.1.key ∧
        ¬(p.1.is_in_molecule = true ∧ p.2.1.is_in_molecule = true ∧
          p.1.molecule_id = p.2.1.molecule_id)) := by
  constructor
  · intro S g atoms hidx p hp
    simp only [detectSpacePartitionCollisions, List.mem_map] at hp
    obtain ⟨kp, hkp, hpe⟩ := hp
    rw [mem_jsSetOfList] at hkp
    obtain ⟨a1, a2, h1, h2, hne, hskip, hcanon⟩ := gridCandidate_spec S g atoms kp hkp
    have hg1 := getD_of_key_index atoms hidx a1 h1
    have hg2 := getD_of_key_index atoms hidx a2 h2
    rcases canonPair_parts a1.key a2.key with hc | hc <;> rw [hc] at hcanon <;> subst hcanon
    · rw [← hpe]
      simp only [hg1, hg2]
      refine ⟨?_, ?_⟩
      · intro he
        exact hne he.symm
      · intro hagg
        exact hskip ⟨hagg.2.2, hagg.1⟩
    · rw [← hpe]
      simp only [hg1, hg2]
      refine ⟨?_, ?_⟩
      · intro he
        exact hne he
      · intro hagg
        exact hskip ⟨hagg.2.2.symm, hagg.2.1⟩
  · intro s sortedX sortedY sortedZ atoms hnd p hp
    simp only [detectSAPCollisions, List.mem_flatMap] at hp
    obtain ⟨kp, hkpx, hin⟩ := hp
    by_cases hyz : (kp ∈ sweepAxis (fun a => (atomAABB s a).bmin.y)
        (fun a => (atomAABB s a).bmax.y) sortedY ∧
        kp ∈ sweepAxis (fun a => (atomAABB s a).bmin.z)
          (fun a => (atomAABB s a).bmax.z) sortedZ)
    case neg => rw [if_neg hyz] at hin; exact absurd hin (by simp)
    rw [if_pos hyz] at hin
    have hkne : kp.1 ≠ kp.2 := by
      rw [sweepAxis, mem_jsSetOfList] at hkpx
      exact sweepInserts_ne _ _ sortedX hnd kp hkpx
    rcases hfa : atoms.find? (fun x => x.key = kp.1) with _ | cubeA <;> rw [hfa] at hin
    · exact absurd hin (by simp)
    rcases hfb : atoms.find? (fun x => x.key = kp.2) with _ | cubeB <;> rw [hfb] at hin
    · exact absurd hin (by simp)
    dsimp only [] at hin
    have hka : cubeA.key = kp.1 := by simpa using List.find?_some hfa
    have hkb : cubeB.key = kp.2 := by simpa using List.find?_some hfb
    by_cases hskip : (cubeA.molecule_id = cubeB.molecule_id ∧ cubeA.is_in_molecule = true)
    · rw [if_pos hskip] at hin
      exact absurd hin (by simp)
    · rw [if_neg hskip] at hin
      simp only [List.mem_singleton] at hin
      subst hin
      refine ⟨?_, fun hagg => hskip ⟨hagg.2.2, hagg.1⟩⟩
      simpa [hka, hkb] using hkne

unseal Rat.mul Rat.inv Rat.add Rat.sub in
theorem broad_phase_same_aggregate_exclusion_witness :
    ((∀ (i : ℕ) (h : i < ([sapAtomA, sapAtomB] : List AtomS).length),
        (([sapAtomA, sapAtomB] : List AtomS).get ⟨i, h⟩).key = i) ∧
      ∀ p ∈ detectSpacePartitionCollisions 100 3 [sapAtomA, sapAtomB],
        p.1.key ≠ p.2.key ∧
        ¬(p.1.is_in_molecule = true ∧ p.2.is_in_molecule = true ∧
          p.1.molecule_id = p.2.molecule_id)) ∧
    ((([sapAtomA, sapAtomB].map AtomS.key).Nodup) ∧
      ∀ p ∈ detectSAPCollisions 3 [sapAtomA, sapAtomB] [sapAtomA, sapAtomB]
          [sapAtomA, sapAtomB] [sapAtomA, sapAtomB],
        p.1.key ≠ p.2.1.key ∧
        ¬(p.1.is_in_molecule = true ∧ p.2.1.is_in_molecule = true ∧
          p.1.molecule_id = p.2.1.molecule_id)) :=
  ⟨⟨by decide,
    broad_phase_same_aggregate_exclusion.1 100 3 [sapAtomA, sapAtomB] (by decide)⟩,
   ⟨by decide,
    broad_phase_same_aggregate_exclusion.2 3 [sapAtomA, sapAtomB] [sapAtomA, sapAtomB]
      [sapAtomA, sapAtomB] [sapAtomA, sapAtomB] (by decide)⟩⟩

theorem dot_vneg_right (a b : Vec3) : dot a (vneg b) = -dot a b := by
  simp [dot, vneg]; ring

theorem vlength_vneg (sqrtFn : ℚ → ℚ) (a : Vec3) :
    vlength sqrtFn (vneg a) = vlength sqrtFn a := by
  unfold vlength
  rw [lengthSq_vneg]

theorem projectOBB_vneg (s : ℚ) (X : OBB) (v : Vec3) :
    projectOBB s X (vneg v) = (-(projectOBB s X v).2, -(projectOBB s X v).1) := by
  simp only [projectOBB, dot_vneg_right, abs_neg]
  exact Prod.ext (by ring) (by ring)

theorem testSepAxis_eq_sepOv (s : ℚ) (A B : OBB) (v : Vec3) :
    testSepAxis s A B v =
      sepOv ((projectOBB s A v).2 - (projectOBB s B v).1)
        ((projectOBB s B v).2 - (projectOBB s A v).1) := by
  unfold testSepAxis sepOv
  dsimp only
  have h1 : decide ((projectOBB s A v).2 ≥ (projectOBB s B v).1) =
      decide (0 ≤ (projectOBB s A v).2 - (projectOBB s B v).1) :=
    decide_eq_decide.mpr (ge_iff_le.trans sub_nonneg.symm)
  have h2 : decide ((projectOBB s B v).2 ≥ (projectOBB s A v).1) =
      decide (0 ≤ (projectOBB s B v).2 - (projectOBB s A v).1) :=
    decide_eq_decide.mpr (ge_iff_le.trans sub_nonneg.symm)
  rw [h1, h2]

theorem sepOv_comm (d1 d2 : ℚ) : sepOv d1 d2 = sepOv d2 d1 := by
  unfold sepOv
  dsimp only
  rw [Bool.and_comm, min_comm]

theorem testSepAxis_swap (s : ℚ) (A B : OBB) (v : Vec3) :
    testSepAxis s A B v = testSepAxis s B A v := by
  rw [testSepAxis_eq_sepOv, testSepAxis_eq_sepOv, sepOv_comm]

theorem testSepAxis_vneg (s : ℚ) (A B : OBB) (v : Vec3) :
    testSepAxis s A B (vneg v) = testSepAxis s A B v := by
  rw [testSepAxis_eq_sepOv, testSepAxis_eq_sepOv, projectOBB_vneg, projectOBB_vneg]
  have e1 : -(projectOBB s A v).1 - -(projectOBB s B v).2 =
      (projectOBB s B v).2 - (projectOBB s A v).1 := by ring
  have e2 : -(projectOBB s B v).1 - -(projectOBB s A v).2 =
      (projectOBB s A v).2 - (projectOBB s B v).1 := by ring
  simp only []
  rw [e1, e2, sepOv_comm]

theorem mapDP_crossAxisList_swap (sqrtFn : ℚ → ℚ) (s : ℚ) (X Y : OBB) (va vb : Vec3) :
    (crossAxisList sqrtFn vb va).map (testSepAxis s X Y) =
      (crossAxisList sqrtFn va vb).map (testSepAxis s X Y) := by
  unfold crossAxisList
  dsimp only
  rw [cross_antisymm va vb, vlength_vneg, vnormalize_vneg]
  split_ifs
  · simp [testSepAxis_vneg]
  · rfl

theorem satLoop_none_iff (sqrtFn : ℚ → ℚ) (s : ℚ) (X Y : OBB) (axes : List Vec3)
    (acc : Option (ℚ × Vec3)) :
    satLoop sqrtFn s X Y axes acc = none ↔
      (axes.map (testSepAxis s X Y)).any (fun r => r.1) = true := by
  induction axes generalizing acc with
  | nil => simp [satLoop]
  | cons axis rest ih =>
    by_cases hr : (testSepAxis s X Y axis).1
    · simp [satLoop, hr]
    · simp only [satLoop]
      rw [if_neg (by simpa using hr)]
      rw [ih]
      simp [hr]

theorem updAcc_fst (sqrtFn : ℚ → ℚ) (X Y : OBB) (acc : Option (ℚ × Vec3))
    (overlap : ℚ) (axis : Vec3) :
    (updAcc sqrtFn X Y acc overlap axis).map Prod.fst =
      oMin (acc.map Prod.fst) overlap := by
  cases acc with
  | none => simp [updAcc, oMin]
  | some p =>
    obtain ⟨m, n⟩ := p
    by_cases hlt : overlap < m
    · simp [updAcc, oMin, hlt, min_eq_left (le_of_lt hlt)]
    · simp [updAcc, oMin, hlt, min_eq_right (le_of_not_lt hlt)]

theorem satLoop_fst (sqrtFn : ℚ → ℚ) (s : ℚ) (X Y : OBB) (axes : List Vec3)
    (acc : Option (ℚ × Vec3))
    (hns : (axes.map (testSepAxis s X Y)).any (fun r => r.1) = false) :
    (satLoop sqrtFn s X Y axes acc).map (fun o => o.map Prod.fst) =
      some ((axes.map fun ax => (testSepAxis s X Y ax).2).foldl oMin (acc.map Prod.fst)) := by
  induction axes generalizing acc with
  | nil => simp [satLoop]
  | cons axis rest ih =>
    simp only [List.map_cons, List.any_cons, Bool.or_eq_false_iff] at hns
    simp only [satLoop]
    rw [if_neg (by simp [hns.1])]
    rw [ih _ hns.2]
    rw [List.map_cons, List.foldl_cons, updAcc_fst]

theorem foldl_oMin_some (l : List ℚ) (v : ℚ) :
    ∃ w, l.foldl oMin (some v) = some w := by
  induction l generalizing v with
  | nil => exact ⟨v, rfl⟩
  | cons d t ih =>
    rw [List.foldl_cons]
    exact ih (min d v)

theorem foldl_oMin_cons_ne_none (d : ℚ) (t : List ℚ) :
    (d :: t).foldl oMin none ≠ none := by
  rw [List.foldl_cons]
  show t.foldl oMin (oMin none d) ≠ none
  obtain ⟨w, hw⟩ := foldl_oMin_some t d
  simp only [oMin]
  rw [hw]
  simp

theorem oMin_right_comm (z : Option ℚ) (a b : ℚ) :
    oMin (oMin z a) b = oMin (oMin z b) a := by
  cases z with
  | none => simp [oMin, min_comm]
  | some m => simp [oMin, min_left_comm]

/-- The multiset of `(separated, overlap)` results over the axis list of the
swapped call equals that of the original call: the six face axes are the same
six vectors in a different order, and each surviving cross axis is the exact
negation of its transposed counterpart, which leaves both projection results
unchanged. -/
theorem dpair_perm (sqrtFn : ℚ → ℚ) (s : ℚ) (X Y : OBB) :
    ((testAxes sqrtFn Y X).map (testSepAxis s X Y)).Perm
      ((testAxes sqrtFn X Y).map (testSepAxis s X Y)) := by
  unfold testAxes
  rw [List.perm_iff_count]
  intro x
  simp only [List.map_append, List.map_cons, List.map_nil, List.count_append,
    List.count_cons, List.count_nil]
  rw [mapDP_crossAxisList_swap sqrtFn s X Y X.a1 Y.a1,
    mapDP_crossAxisList_swap sqrtFn s X Y X.a2 Y.a1,
    mapDP_crossAxisList_swap sqrtFn s X Y X.a3 Y.a1,
    mapDP_crossAxisList_swap sqrtFn s X Y X.a1 Y.a2,
    mapDP_crossAxisList_swap sqrtFn s X Y X.a2 Y.a2,
    mapDP_crossAxisList_swap sqrtFn s X Y X.a3 Y.a2,
    mapDP_crossAxisList_swap sqrtFn s X Y X.a1 Y.a3,
    mapDP_crossAxisList_swap sqrtFn s X Y X.a2 Y.a3,
    mapDP_crossAxisList_swap sqrtFn s X Y X.a3 Y.a3]
  omega

theorem testAxes_ne_nil (sqrtFn : ℚ → ℚ) (X Y : OBB) : testAxes sqrtFn X Y ≠ [] := by
  unfold testAxes
  simp

theorem findCollisionInfo_none_iff (sqrtFn : ℚ → ℚ) (matching : Bool) (s : ℚ)
    (pA pB : Pose) :
    findCollisionInfo sqrtFn matching s pA pB = none ↔
      ((testAxes sqrtFn (mkOBB sqrtFn pA) (mkOBB sqrtFn pB)).map
        (testSepAxis s (mkOBB sqrtFn pA) (mkOBB sqrtFn pB))).any (fun r => r.1) = true := by
  rcases h : satLoop sqrtFn s (mkOBB sqrtFn pA) (mkOBB sqrtFn pB)
      (testAxes sqrtFn (mkOBB sqrtFn pA) (mkOBB sqrtFn pB)) none with _ | o
  · have hany := (satLoop_none_iff sqrtFn s _ _ _ none).mp h
    have hfc : findCollisionInfo sqrtFn matching s pA pB = none := by
      unfold findCollisionInfo
      rw [h]
    simp [hfc, hany]
  · have hnn : ¬(satLoop sqrtFn s (mkOBB sqrtFn pA) (mkOBB sqrtFn pB)
        (testAxes sqrtFn (mkOBB sqrtFn pA) (mkOBB sqrtFn pB)) none = none) := by
      rw [h]; simp
    have hany : ((testAxes sqrtFn (mkOBB sqrtFn pA) (mkOBB sqrtFn pB)).map
        (testSepAxis s (mkOBB sqrtFn pA) (mkOBB sqrtFn pB))).any (fun r => r.1) = false := by
      rcases Bool.eq_false_or_eq_true (((testAxes sqrtFn (mkOBB sqrtFn pA)
          (mkOBB sqrtFn pB)).map (testSepAxis s (mkOBB sqrtFn pA)
            (mkOBB sqrtFn pB))).any (fun r => r.1)) with ht | hf
      · exact absurd ((satLoop_none_iff sqrtFn s _ _ _ none).mpr ht) hnn
      · exact hf
    rcases o with _ | ⟨d, n⟩
    · exfalso
      have hfst := satLoop_fst sqrtFn s _ _ _ none hany
      rw [h] at hfst
      have hfst2 : (none : Option ℚ) =
          ((testAxes sqrtFn (mkOBB sqrtFn pA) (mkOBB sqrtFn pB)).map
            (fun ax => (testSepAxis s (mkOBB sqrtFn pA) (mkOBB sqrtFn pB) ax).2)).foldl
              oMin none :=
        Option.some.inj hfst
      rcases hsh : (testAxes sqrtFn (mkOBB sqrtFn pA) (mkOBB sqrtFn pB)).map
          (fun ax => (testSepAxis s (mkOBB sqrtFn pA) (mkOBB sqrtFn pB) ax).2) with _ | ⟨d0, t0⟩
      · exact testAxes_ne_nil sqrtFn _ _ (List.map_eq_nil_iff.mp hsh)
      · rw [hsh] at hfst2
        exact foldl_oMin_cons_ne_none d0 t0 hfst2.symm
    · have hfc : findCollisionInfo sqrtFn matching s pA pB =
          some ⟨smul (1/2) (vadd (mkOBB sqrtFn pA).center (mkOBB sqrtFn pB).center),
            n, d, matching⟩ := by
        unfold findCollisionInfo
        rw [h]
      simp [hfc, hany]

theorem findCollisionInfo_depth (sqrtFn : ℚ → ℚ) (matching : Bool) (s : ℚ)
    (pA pB : Pose) (i : CInfo)
    (h : findCollisionInfo sqrtFn matching s pA pB = some i) :
    ((testAxes sqrtFn (mkOBB sqrtFn pA) (mkOBB sqrtFn pB)).map
        (fun ax => (testSepAxis s (mkOBB sqrtFn pA) (mkOBB sqrtFn pB) ax).2)).foldl
      oMin none = some i.penetrationDepth := by
  rcases hl : satLoop sqrtFn s (mkOBB sqrtFn pA) (mkOBB sqrtFn pB)
      (testAxes sqrtFn (mkOBB sqrtFn pA) (mkOBB sqrtFn pB)) none with _ | o
  · unfold findCollisionInfo at h
    rw [hl] at h
    cases h
  · have hnn : ¬(satLoop sqrtFn s (mkOBB sqrtFn pA) (mkOBB sqrtFn pB)
        (testAxes sqrtFn (mkOBB sqrtFn pA) (mkOBB sqrtFn pB)) none = none) := by
      rw [hl]; simp
    have hany : ((testAxes sqrtFn (mkOBB sqrtFn pA) (mkOBB sqrtFn pB)).map
        (testSepAxis s (mkOBB sqrtFn pA) (mkOBB sqrtFn pB))).any (fun r => r.1) = false := by
      rcases Bool.eq_false_or_eq_true (((testAxes sqrtFn (mkOBB sqrtFn pA)
          (mkOBB sqrtFn pB)).map (testSepAxis s (mkOBB sqrtFn pA)
            (mkOBB sqrtFn pB))).any (fun r => r.1)) with ht | hf
      · exact absurd ((satLoop_none_iff sqrtFn s _ _ _ none).mpr ht) hnn
      · exact hf
    rcases o with _ | ⟨d, n⟩
    · unfold findCollisionInfo at h
      rw [hl] at h
      cases h
    · unfold findCollisionInfo at h
      rw [hl] at h
      have hd : i.penetrationDepth = d := by
        have := Option.some.inj h
        rw [← this]
      have hfst := satLoop_fst sqrtFn s _ _ _ none hany
      rw [hl] at hfst
      have hfst2 : (some d : Option ℚ) =
          ((testAxes sqrtFn (mkOBB sqrtFn pA) (mkOBB sqrtFn pB)).map
            (fun ax => (testSepAxis s (mkOBB sqrtFn pA) (mkOBB sqrtFn pB) ax).2)).foldl
              oMin none :=
        Option.some.inj hfst
      rw [hd]
      exact hfst2.symm

/-- C5 (amended): the narrow-phase test applied to `(A,B)` and `(B,A)`
reports the same collision/no-collision verdict and, on collision, the same
penetration depth.  The two contact normals, however, are NOT always exact
opposites: the minimum-overlap axis is chosen by a strict-improvement scan
over an axis list whose order differs between the two calls, so when two axes
tie for the minimum the calls can pick different (non-antiparallel) axes —
see the counterexample. -/
theorem sat_symmetry_verdict_and_depth (sqrtFn : ℚ → ℚ) (matching : Bool) (s : ℚ)
    (pA pB : Pose) :
    (findCollisionInfo sqrtFn matching s pA pB = none ↔
      findCollisionInfo sqrtFn matching s pB pA = none) ∧
    (∀ iAB iBA : CInfo, findCollisionInfo sqrtFn matching s pA pB = some iAB →
      findCollisionInfo sqrtFn matching s pB pA = some iBA →
      iAB.penetrationDepth = iBA.penetrationDepth) := by
  have hmapswap : (testAxes sqrtFn (mkOBB sqrtFn pB) (mkOBB sqrtFn pA)).map
      (testSepAxis s (mkOBB sqrtFn pB) (mkOBB sqrtFn pA)) =
      (testAxes sqrtFn (mkOBB sqrtFn pB) (mkOBB sqrtFn pA)).map
        (testSepAxis s (mkOBB sqrtFn pA) (mkOBB sqrtFn pB)) :=
    List.map_congr_left fun a _ => testSepAxis_swap s _ _ a
  have hperm := dpair_perm sqrtFn s (mkOBB sqrtFn pA) (mkOBB sqrtFn pB)
  constructor
  · rw [findCollisionInfo_none_iff, findCollisionInfo_none_iff, hmapswap]
    constructor
    · intro ht
      rw [List.any_eq_true] at ht ⊢
      obtain ⟨r, hr, hp⟩ := ht
      exact ⟨r, hperm.symm.mem_iff.mp hr, hp⟩
    · intro ht
      rw [List.any_eq_true] at ht ⊢
      obtain ⟨r, hr, hp⟩ := ht
      exact ⟨r, hperm.mem_iff.mp hr, hp⟩
  · intro iAB iBA hAB hBA
    have hdA := findCollisionInfo_depth sqrtFn matching s pA pB iAB hAB
    have hdB := findCollisionInfo_depth sqrtFn matching s pB pA iBA hBA
    have hswap2 : (testAxes sqrtFn (mkOBB sqrtFn pB) (mkOBB sqrtFn pA)).map
        (fun ax => (testSepAxis s (mkOBB sqrtFn pB) (mkOBB sqrtFn pA) ax).2) =
        ((testAxes sqrtFn (mkOBB sqrtFn pB) (mkOBB sqrtFn pA)).map
          (testSepAxis s (mkOBB sqrtFn pA) (mkOBB sqrtFn pB))).map Prod.snd := by
      rw [List.map_map]
      exact List.map_congr_left fun a _ => congrArg Prod.snd (testSepAxis_swap s _ _ a)
    have hsnd : ((testAxes sqrtFn (mkOBB sqrtFn pA) (mkOBB sqrtFn pB)).map
        (fun ax => (testSepAxis s (mkOBB sqrtFn pA) (mkOBB sqrtFn pB) ax).2)) =
        ((testAxes sqrtFn (mkOBB sqrtFn pA) (mkOBB sqrtFn pB)).map
          (testSepAxis s (mkOBB sqrtFn pA) (mkOBB sqrtFn pB))).map Prod.snd := by
      rw [List.map_map]
      rfl
    rw [hswap2] at hdB
    rw [hsnd] at hdA
    have hfold := (hperm.map Prod.snd).foldl_eq'
      (fun x _ y _ z => oMin_right_comm z x y) (none : Option ℚ)
    rw [hfold] at hdB
    rw [hdA] at hdB
    exact Option.some.inj hdB

unseal Rat.mul Rat.inv Rat.add Rat.sub in
/-- C5 counterexample: at these two poses both calls report a collision of
depth `2/5`, but the normals `(1,0,0)` and `(-3/5,-4/5,0)` are not exact
opposites — the overlap along A's x axis and along B's first local axis tie,
and each call keeps the first axis in its own test order. -/
theorem sat_normals_not_opposite :
    findCollisionInfo ratSqrt false 1 (idPoseAt ⟨0, 0, 0⟩)
      (rot345PoseAt ⟨4/5, 2/5, 0⟩) = some cinfoAB345 ∧
    findCollisionInfo ratSqrt false 1 (rot345PoseAt ⟨4/5, 2/5, 0⟩)
      (idPoseAt ⟨0, 0, 0⟩) = some cinfoBA345 ∧
    cinfoAB345.contactNormal ≠ vneg cinfoBA345.contactNormal := by
  decide

unseal Rat.mul Rat.inv Rat.add Rat.sub in
theorem sat_symmetry_verdict_and_depth_witness :
    findCollisionInfo ratSqrt false 1 (idPoseAt ⟨0, 0, 0⟩)
      (rot345PoseAt ⟨4/5, 2/5, 0⟩) = some cinfoAB345 ∧
    findCollisionInfo ratSqrt false 1 (rot345PoseAt ⟨4/5, 2/5, 0⟩)
      (idPoseAt ⟨0, 0, 0⟩) = some cinfoBA345 ∧
    cinfoAB345.penetrationDepth = cinfoBA345.penetrationDepth :=
  ⟨by decide, by decide,
   (sat_symmetry_verdict_and_depth ratSqrt false 1 (idPoseAt ⟨0, 0, 0⟩)
      (rot345PoseAt ⟨4/5, 2/5, 0⟩)).2 cinfoAB345 cinfoBA345 (by decide) (by decide)⟩

end VentionSim
